import Mathlib

/-!
Verification of the WebRTC signaling core of PathFinder
(src/src-tauri/src/lib.rs, lines 516-1421).

The embedding models:
- `SignalingMessage` (the serde-tagged enum, lib.rs 520-557);
- `ShareSession` and the session table of `SignalingServerState`
  (lib.rs 560-572), with the `HashMap<String, ShareSession>` modelled
  as a function `String → Option ShareSession` and `insert` as a
  pointwise update;
- the per-connection unbounded mpsc delivery queues, modelled as a
  function from handle id (`Nat`) to a `ChanState` holding the queue
  contents and a closed flag (`send` on a closed channel fails, which
  is the `is_err()` case in the source);
- a `sendLog` ghost field recording every `send` attempt in program
  order (each attempt is also traced by an `eprintln!` in the source),
  so that "n delivery attempts" is observable;
- the registry methods `create_session`, `add_sharer`, `add_viewer`,
  `broadcast_to_viewers`, `send_to_sharer` (lib.rs 581-657);
- the inbound message dispatch of `handle_websocket_stream`
  (lib.rs 1296-1415) as `handleMessage`, acting on the connection's
  local `code`/`role` pair (`ConnState`) and its own queue handle `tx`.
-/

namespace PathFinder

/-- Opaque signaling payloads are kept as strings, exactly as in the
Rust enum; `sdp_m_line_index : u16` is modelled as `Nat` (it is never
computed with, only carried). -/
inductive SignalingMessage where
  | Join (code role : String)
  | Offer (code sdp sdp_type : String)
  | Answer (code sdp sdp_type : String)
  | IceCandidate (code candidate : String) (sdp_mid : Option String) (sdp_m_line_index : Option Nat)
  | Error (message : String)
  | ViewerJoined (code : String)
deriving DecidableEq, Repr

/-- Items placed on a connection's delivery queue. The source sends
`ws::Message::Text` payloads: `sig m` stands for
`serde_json::to_string(m)` of a `SignalingMessage`; `joined code role`
for the ad-hoc `{"type":"joined",...}` json built at lib.rs 1316-1320
and 1341-1345; `errorMsg s` for the ad-hoc `{"type":"error","message":s}`
json built at lib.rs 1329-1332 and 1368-1371. These three json shapes
are pairwise distinguishable on the wire by their `type` tag, so the
constructor split is faithful. -/
inductive WireMsg where
  | sig (m : SignalingMessage)
  | joined (code role : String)
  | errorMsg (message : String)
deriving DecidableEq, Repr

/-- State of one unbounded mpsc channel: the queued items, and whether
the receiving half has been dropped (in which case `send` errors). -/
structure ChanState where
  queue : List WireMsg
  closed : Bool
deriving DecidableEq, Repr

/-- ShareSession (lib.rs 560-567): sharer and viewers hold mpsc sender
handles, modelled by their `Nat` ids. -/
structure ShareSession where
  code : String
  sharer : Option Nat
  viewers : List Nat
  created_at : Nat
  pending_offer : Option SignalingMessage
deriving DecidableEq, Repr

/-- The process-wide state: the session table of `SignalingServerState`
plus the channel states and the ghost log of send attempts. -/
structure ServerState where
  sessions : String → Option ShareSession
  chans : Nat → ChanState
  sendLog : List (Nat × WireMsg)

/-- State with no sessions, all channels open and empty. -/
def emptyState : ServerState :=
  { sessions := fun _ => none
    chans := fun _ => { queue := [], closed := false }
    sendLog := [] }

/-- Queue contents of handle `h`. -/
def ServerState.queueOf (st : ServerState) (h : Nat) : List WireMsg :=
  (st.chans h).queue

/-- One `sender.send(msg)` call: logs the attempt; if the channel is
open, appends to its queue and succeeds, otherwise fails. -/
def chanSend (st : ServerState) (h : Nat) (m : WireMsg) : ServerState × Bool :=
  if (st.chans h).closed then
    ({ st with sendLog := st.sendLog ++ [(h, m)] }, false)
  else
    ({ st with
        chans := fun k =>
          if k = h then { st.chans h with queue := (st.chans h).queue ++ [m] } else st.chans k
        sendLog := st.sendLog ++ [(h, m)] }, true)

/-- Uppercase hex digit, as produced by Rust's `{:X}` formatting. -/
def hexDigit (n : Nat) : Char :=
  if n < 10 then Char.ofNat (48 + n) else Char.ofNat (55 + n)

/-- Rust `format!("{:06X}", n)` for `n < 16^6`: six zero-padded
uppercase hex digits. -/
def toHex6 (n : Nat) : String :=
  String.mk [hexDigit (n / 1048576 % 16), hexDigit (n / 65536 % 16),
             hexDigit (n / 4096 % 16), hexDigit (n / 256 % 16),
             hexDigit (n / 16 % 16), hexDigit (n % 16)]

/-- create_session (lib.rs 581-595). The random 128-bit uuid value is
an input `rnd`; the code is `format!("{:06X}", rnd % 16777216)`. The
fresh record is inserted unconditionally by `HashMap::insert`, which
overwrites any record already stored under the same key; the source
has no collision check. `now` is the creation timestamp. -/
def create_session (st : ServerState) (rnd : Nat) (now : Nat) : ServerState × String :=
  let code := toHex6 (rnd % 16777216)
  let session : ShareSession :=
    { code := code, sharer := none, viewers := [], created_at := now, pending_offer := none }
  ({ st with sessions := fun k => if k = code then some session else st.sessions k }, code)

/-- add_sharer (lib.rs 597-608): overwrites the sharer handle if the
session exists, returns false otherwise. -/
def add_sharer (st : ServerState) (code : String) (sender : Nat) : ServerState × Bool :=
  match st.sessions code with
  | some session =>
      ({ st with sessions := fun k =>
          if k = code then some { session with sharer := some sender } else st.sessions k },
       true)
  | none => (st, false)

/-- add_viewer (lib.rs 610-618): pushes the handle onto the viewer list
if the session exists, returns false otherwise. -/
def add_viewer (st : ServerState) (code : String) (sender : Nat) : ServerState × Bool :=
  match st.sessions code with
  | some session =>
      ({ st with sessions := fun k =>
          if k = code then some { session with viewers := session.viewers ++ [sender] }
          else st.sessions k },
       true)
  | none => (st, false)

/-- The `for viewer in &session.viewers` loop body of
broadcast_to_viewers (lib.rs 625-631): send to each handle in order,
ignoring the per-send result. -/
def sendAll (st : ServerState) (vs : List Nat) (message : SignalingMessage) : ServerState :=
  vs.foldl (fun s v => (chanSend s v (WireMsg.sig message)).1) st

/-- broadcast_to_viewers (lib.rs 620-635): sends the serialized message
to every viewer handle in order, ignoring per-viewer send failures;
no-op when the session does not exist. -/
def broadcast_to_viewers (st : ServerState) (code : String) (message : SignalingMessage) :
    ServerState :=
  match st.sessions code with
  | some session => sendAll st session.viewers message
  | none => st

/-- send_to_sharer (lib.rs 637-657): sends to the sharer handle if both
the session and a sharer exist, returning the send result; false
otherwise. -/
def send_to_sharer (st : ServerState) (code : String) (message : SignalingMessage) :
    ServerState × Bool :=
  match st.sessions code with
  | some session =>
      match session.sharer with
      | some sharer => chanSend st sharer (WireMsg.sig message)
      | none => (st, false)
  | none => (st, false)

/-- The connection-local `code`/`role` variables of the inbound loop
(lib.rs 1297-1298). -/
structure ConnState where
  code : Option String
  role : Option String
deriving DecidableEq, Repr

/-- One iteration of the inbound loop of handle_websocket_stream on a
successfully parsed message (lib.rs 1307-1404). `tx` is this
connection's own delivery-queue handle. Returns the updated server
state and the connection's updated local `code`/`role`. -/
def handleMessage (st : ServerState) (conn : ConnState) (tx : Nat) (m : SignalingMessage) :
    ServerState × ConnState :=
  match m with
  | .Join join_code join_role =>
    let conn' : ConnState := { code := some join_code, role := some join_role }
    if join_role = "sharer" then
      let r := add_sharer st join_code tx
      if r.2 then
        ((chanSend r.1 tx (WireMsg.joined join_code "sharer")).1, conn')
      else
        ((chanSend r.1 tx
            (WireMsg.errorMsg ("Session not found for code: " ++ join_code))).1, conn')
    else if join_role = "viewer" then
      let r := add_viewer st join_code tx
      if r.2 then
        let st2 := (chanSend r.1 tx (WireMsg.joined join_code "viewer")).1
        let st3 := (send_to_sharer st2 join_code (SignalingMessage.ViewerJoined join_code)).1
        let st4 :=
          match st3.sessions join_code with
          | some session =>
            match session.pending_offer with
            | some offer => (chanSend st3 tx (WireMsg.sig offer)).1
            | none => st3
          | none => st3
        (st4, conn')
      else
        ((chanSend r.1 tx (WireMsg.errorMsg "Session not found")).1, conn')
    else
      (st, conn')
  | .Offer msg_code _ _ =>
    let st1 :=
      match st.sessions msg_code with
      | some session =>
          { st with sessions := fun k =>
              if k = msg_code then some { session with pending_offer := some m }
              else st.sessions k }
      | none => st
    (broadcast_to_viewers st1 msg_code m, conn)
  | .Answer msg_code _ _ =>
    ((send_to_sharer st msg_code m).1, conn)
  | .IceCandidate msg_code _ _ _ =>
    match conn.role with
    | some current_role =>
      if current_role = "sharer" then (broadcast_to_viewers st msg_code m, conn)
      else ((send_to_sharer st msg_code m).1, conn)
    | none => (st, conn)
  | .Error _ => (st, conn)
  | .ViewerJoined _ => (st, conn)

/-- Repeated handling of a sequence of Offer messages for one code, in
arrival order: each element gives the sdp and sdpType of one Offer.
Used to state the supersede property over message sequences. -/
def processOffers (st : ServerState) (conn : ConnState) (tx : Nat) (c : String)
    (offers : List (String × String)) : ServerState :=
  offers.foldl (fun s p => (handleMessage s conn tx (SignalingMessage.Offer c p.1 p.2)).1) st

/-- Concrete test session: sharer handle 9, one viewer handle 5. -/
def sessA : ShareSession :=
  { code := "AAA111", sharer := some 9, viewers := [5], created_at := 0, pending_offer := none }

/-- Concrete test state holding only `sessA` under its code. -/
def stA : ServerState :=
  { emptyState with sessions := fun k => if k = "AAA111" then some sessA else none }

/-- Concrete test session with a cached pending offer and no viewers. -/
def sessB : ShareSession :=
  { code := "BBB222", sharer := some 9, viewers := [], created_at := 0,
    pending_offer := some (SignalingMessage.Offer "BBB222" "thesdp" "offer") }

/-- Concrete test state holding only `sessB` under its code. -/
def stB : ServerState :=
  { emptyState with sessions := fun k => if k = "BBB222" then some sessB else none }

/-- Concrete test session with three viewers, used for the broadcast
fan-out witness. -/
def sessC : ShareSession :=
  { code := "CCC333", sharer := some 9, viewers := [1, 2, 3], created_at := 0,
    pending_offer := none }

/-- Concrete test state holding only `sessC`; viewer channel 2 is
closed (its receiver was dropped), the rest are open. -/
def stC : ServerState :=
  { sessions := fun k => if k = "CCC333" then some sessC else none
    chans := fun k => { queue := [], closed := k == 2 }
    sendLog := [] }

/-! Basic lemmas about the channel primitive. -/

theorem chanSend_sessions (st : ServerState) (h : Nat) (m : WireMsg) :
    ((chanSend st h m).1).sessions = st.sessions := by
  unfold chanSend
  split <;> rfl

theorem chanSend_closed (st : ServerState) (h : Nat) (m : WireMsg) (k : Nat) :
    (((chanSend st h m).1).chans k).closed = (st.chans k).closed := by
  unfold chanSend
  split
  · rfl
  · simp only
    by_cases hk : k = h
    · subst hk; simp_all
    · simp [hk]

theorem chanSend_log (st : ServerState) (h : Nat) (m : WireMsg) :
    ((chanSend st h m).1).sendLog = st.sendLog ++ [(h, m)] := by
  unfold chanSend
  split <;> rfl

theorem chanSend_queueOf (st : ServerState) (h : Nat) (m : WireMsg) (k : Nat) :
    ((chanSend st h m).1).queueOf k =
      if k = h ∧ (st.chans h).closed = false then st.queueOf k ++ [m] else st.queueOf k := by
  unfold chanSend ServerState.queueOf
  split
  · rename_i hc
    simp [hc]
  · rename_i hc
    simp only [Bool.not_eq_true] at hc
    by_cases hk : k = h
    · subst hk; simp [hc]
    · simp [hk]

/-! Lemmas about the broadcast loop. -/

theorem sendAll_nil (st : ServerState) (m : SignalingMessage) : sendAll st [] m = st := rfl

theorem sendAll_cons (st : ServerState) (v : Nat) (rest : List Nat) (m : SignalingMessage) :
    sendAll st (v :: rest) m = sendAll (chanSend st v (WireMsg.sig m)).1 rest m := rfl

theorem sendAll_sessions (vs : List Nat) (st : ServerState) (m : SignalingMessage) :
    (sendAll st vs m).sessions = st.sessions := by
  induction vs generalizing st with
  | nil => rfl
  | cons v rest ih =>
      rw [sendAll_cons, ih, chanSend_sessions]

theorem sendAll_closed (vs : List Nat) (st : ServerState) (m : SignalingMessage) (k : Nat) :
    ((sendAll st vs m).chans k).closed = (st.chans k).closed := by
  induction vs generalizing st with
  | nil => rfl
  | cons v rest ih =>
      rw [sendAll_cons, ih, chanSend_closed]

theorem sendAll_log (vs : List Nat) (st : ServerState) (m : SignalingMessage) :
    (sendAll st vs m).sendLog = st.sendLog ++ vs.map (fun v => (v, WireMsg.sig m)) := by
  induction vs generalizing st with
  | nil => simp [sendAll_nil]
  | cons v rest ih =>
      rw [sendAll_cons, ih, chanSend_log, List.map_cons, List.append_assoc,
        List.singleton_append]

theorem sendAll_queueOf_notmem (vs : List Nat) (st : ServerState) (m : SignalingMessage)
    (k : Nat) (hk : k ∉ vs) :
    (sendAll st vs m).queueOf k = st.queueOf k := by
  induction vs generalizing st with
  | nil => rfl
  | cons v rest ih =>
      simp only [List.mem_cons, not_or] at hk
      rw [sendAll_cons, ih _ hk.2, chanSend_queueOf]
      simp [hk.1]

theorem sendAll_queueOf_mem (vs : List Nat) (st : ServerState) (m : SignalingMessage)
    (k : Nat) (hnd : vs.Nodup) (hk : k ∈ vs) (hopen : (st.chans k).closed = false) :
    (sendAll st vs m).queueOf k = st.queueOf k ++ [WireMsg.sig m] := by
  induction vs generalizing st with
  | nil => cases hk
  | cons v rest ih =>
      simp only [List.nodup_cons] at hnd
      rw [sendAll_cons]
      rcases List.mem_cons.mp hk with hkv | hkr
      · subst hkv
        rw [sendAll_queueOf_notmem rest _ m k hnd.1, chanSend_queueOf]
        simp [hopen]
      · have hcl : (((chanSend st v (WireMsg.sig m)).1).chans k).closed = false := by
          rw [chanSend_closed]; exact hopen
        rw [ih _ hnd.2 hkr hcl, chanSend_queueOf]
        by_cases hkv : k = v
        · exact absurd (hkv ▸ hkr) hnd.1
        · simp [hkv]

/-! Lemmas about send_to_sharer. -/

theorem send_to_sharer_sessions (st : ServerState) (c : String) (m : SignalingMessage) :
    ((send_to_sharer st c m).1).sessions = st.sessions := by
  unfold send_to_sharer
  split
  · split
    · rw [chanSend_sessions]
    · rfl
  · rfl

theorem send_to_sharer_closed (st : ServerState) (c : String) (m : SignalingMessage) (k : Nat) :
    (((send_to_sharer st c m).1).chans k).closed = (st.chans k).closed := by
  unfold send_to_sharer
  split
  · split
    · rw [chanSend_closed]
    · rfl
  · rfl

theorem send_to_sharer_queueOf_other (st : ServerState) (c : String) (m : SignalingMessage)
    (k : Nat) (hk : ∀ sess, st.sessions c = some sess → sess.sharer ≠ some k) :
    ((send_to_sharer st c m).1).queueOf k = st.queueOf k := by
  unfold send_to_sharer
  split
  · rename_i sess hsess
    split
    · rename_i sh hsh
      rw [chanSend_queueOf]
      have : k ≠ sh := by
        intro he
        exact hk sess hsess (by rw [hsh, he])
      simp [this]
    · rfl
  · rfl

/-! Claim C1. -/

/-- C1: the relay destination set is the static routing table. For a
session with the given code: an Offer is logged as sent to exactly the
session's viewer handles, in order; an Answer to exactly the sharer
handle; an IceCandidate to exactly the viewers when the sender's
Join-recorded role is "sharer", and to exactly the sharer for any other
recorded role. The send-log equalities rule out any delivery to other
viewers, to the sender, or to peers of a different session. -/
theorem relay_routing_table (st : ServerState) (conn : ConnState) (tx : Nat)
    (c sdp t cand : String) (mid : Option String) (midx : Option Nat)
    (sess : ShareSession) (hs : st.sessions c = some sess) :
    ((handleMessage st conn tx (SignalingMessage.Offer c sdp t)).1.sendLog
       = st.sendLog
           ++ sess.viewers.map (fun v => (v, WireMsg.sig (SignalingMessage.Offer c sdp t))))
  ∧ (∀ sh, sess.sharer = some sh →
      (handleMessage st conn tx (SignalingMessage.Answer c sdp t)).1.sendLog
        = st.sendLog ++ [(sh, WireMsg.sig (SignalingMessage.Answer c sdp t))])
  ∧ (conn.role = some "sharer" →
      (handleMessage st conn tx (SignalingMessage.IceCandidate c cand mid midx)).1.sendLog
        = st.sendLog
            ++ sess.viewers.map
                 (fun v => (v, WireMsg.sig (SignalingMessage.IceCandidate c cand mid midx))))
  ∧ (∀ r, conn.role = some r → r ≠ "sharer" → ∀ sh, sess.sharer = some sh →
      (handleMessage st conn tx (SignalingMessage.IceCandidate c cand mid midx)).1.sendLog
        = st.sendLog ++ [(sh, WireMsg.sig (SignalingMessage.IceCandidate c cand mid midx))]) := by
  refine ⟨?_, ?_, ?_, ?_⟩
  · simp [handleMessage, hs, broadcast_to_viewers, sendAll_log]
  · intro sh hsh
    simp [handleMessage, send_to_sharer, hs, hsh, chanSend_log]
  · intro hrole
    simp [handleMessage, hrole, broadcast_to_viewers, hs, sendAll_log]
  · intro r hrole hr sh hsh
    simp [handleMessage, hrole, hr, send_to_sharer, hs, hsh, chanSend_log]

/-- C1 witness: on the concrete state `stA` (sharer 9, viewer 5), a
viewer-role connection's IceCandidate is logged as sent to the sharer
only. -/
theorem relay_routing_table_witness :
    (handleMessage stA { code := some "AAA111", role := some "viewer" } 3
        (SignalingMessage.IceCandidate "AAA111" "cand" none none)).1.sendLog
      = [(9, WireMsg.sig (SignalingMessage.IceCandidate "AAA111" "cand" none none))] := by
  have h := (relay_routing_table stA { code := some "AAA111", role := some "viewer" } 3
    "AAA111" "x" "y" "cand" none none sessA rfl).2.2.2 "viewer" rfl (by decide) 9 rfl
  simpa [stA, emptyState] using h

/-! Claim C2. -/

/-- C2: a viewer that joins a session whose pending-offer cache holds
an Offer receives, on its own delivery queue and as part of handling
the Join, first the joined acknowledgment and then exactly the cached
Offer — the identical message with its code, sdp and sdpType — with no
action by the sharer. -/
theorem late_viewer_receives_pending_offer (st : ServerState) (conn : ConnState) (tx : Nat)
    (c oc os ot : String) (sess : ShareSession)
    (hs : st.sessions c = some sess)
    (hoff : sess.pending_offer = some (SignalingMessage.Offer oc os ot))
    (hsh : sess.sharer ≠ some tx)
    (hopen : (st.chans tx).closed = false) :
    ((handleMessage st conn tx (SignalingMessage.Join c "viewer")).1.queueOf tx
       = st.queueOf tx ++ [WireMsg.joined c "viewer",
                           WireMsg.sig (SignalingMessage.Offer oc os ot)])
  ∧ ((handleMessage st conn tx (SignalingMessage.Join c "viewer")).2
       = { code := some c, role := some "viewer" }) := by
  have hav : add_viewer st c tx =
      ({ st with sessions := fun k =>
          if k = c then some { sess with viewers := sess.viewers ++ [tx] } else st.sessions k },
       true) := by
    unfold add_viewer; rw [hs]
  constructor
  · simp [handleMessage, hav, send_to_sharer_sessions, chanSend_sessions, hoff,
      chanSend_queueOf, chanSend_closed, send_to_sharer_closed, hopen]
    rw [send_to_sharer_queueOf_other, chanSend_queueOf]
    · simp [hopen, ServerState.queueOf]
    · intro sess' hsess'
      rw [chanSend_sessions] at hsess'
      simp at hsess'
      rw [← hsess']
      simpa using hsh
  · simp [handleMessage, hav, hoff]

/-- C2 witness: on the concrete state `stB`, whose session caches the
offer with sdp "thesdp", a fresh viewer on handle 3 joins and its queue
ends up holding the joined acknowledgment followed by that exact
offer. -/
theorem late_viewer_receives_pending_offer_witness :
    (handleMessage stB { code := none, role := none } 3
        (SignalingMessage.Join "BBB222" "viewer")).1.queueOf 3
      = [WireMsg.joined "BBB222" "viewer",
         WireMsg.sig (SignalingMessage.Offer "BBB222" "thesdp" "offer")] := by
  have h := (late_viewer_receives_pending_offer stB { code := none, role := none } 3
    "BBB222" "BBB222" "thesdp" "offer" sessB rfl rfl (by decide) rfl).1
  simpa [stB, emptyState, ServerState.queueOf] using h

/-! Claim C3. -/

/-- C3 counterexample: create_session has no collision detection. With
the process's random source producing the same 24-bit value twice (a
forced collision), the two sequential create_session calls return the
identical code "000000", and the second call overwrites the existing
session record: the sharer attached to the first session is wiped and
the record is reset to an empty one with the new timestamp. -/
theorem create_session_collision_counterexample :
    ((create_session emptyState 0 100).2 = "000000")
  ∧ ((create_session ((add_sharer (create_session emptyState 0 100).1 "000000" 7).1) 0 200).2
       = "000000")
  ∧ (((add_sharer (create_session emptyState 0 100).1 "000000" 7).1).sessions "000000"
       = some { code := "000000", sharer := some 7, viewers := [], created_at := 100,
                pending_offer := none })
  ∧ (((create_session ((add_sharer (create_session emptyState 0 100).1 "000000" 7).1) 0 200).1).sessions
        "000000"
       = some { code := "000000", sharer := none, viewers := [], created_at := 200,
                pending_offer := none }) := by
  decide

/-- C3 (amended): create_session derives the code deterministically
from the random value (six zero-padded uppercase hex digits of
rnd mod 16777216) and unconditionally inserts a fresh empty session
record under that code, overwriting any session already stored there;
sessions under other codes are untouched. There is no collision check
and no regeneration. -/
theorem create_session_no_collision_check (st : ServerState) (rnd now : Nat) :
    ((create_session st rnd now).2 = toHex6 (rnd % 16777216))
  ∧ (((create_session st rnd now).1).sessions (toHex6 (rnd % 16777216))
       = some { code := toHex6 (rnd % 16777216), sharer := none, viewers := [],
                created_at := now, pending_offer := none })
  ∧ (∀ k, k ≠ toHex6 (rnd % 16777216) → ((create_session st rnd now).1).sessions k
       = st.sessions k) := by
  refine ⟨rfl, by simp [create_session], fun k hk => ?_⟩
  simp [create_session, hk]

/-- C3 witness: instantiating the amended theorem at the concrete state
`stA` and random value 0. -/
theorem create_session_no_collision_check_witness :
    ((create_session stA 0 100).1).sessions "AAA111" = some sessA := by
  have h := (create_session_no_collision_check stA 0 100).2.2 "AAA111" (by decide)
  simpa [stA] using h

/-! Claim C4. -/

/-- C4 counterexample: a connection that has never sent a Join (its
local code and role are both none) sends an Offer and an Answer naming
the existing session "AAA111". The Offer is stored in that session's
pending-offer cache and delivered to viewer 5, and the Answer is
delivered to sharer 9 — relay traffic from an unaffiliated connection
is both cached and delivered, contradicting the claim. -/
theorem unjoined_relay_counterexample :
    ((handleMessage stA { code := none, role := none } 3
        (SignalingMessage.Offer "AAA111" "sdp1" "offer")).1.sessions "AAA111"
       = some { code := "AAA111", sharer := some 9, viewers := [5], created_at := 0,
                pending_offer := some (SignalingMessage.Offer "AAA111" "sdp1" "offer") })
  ∧ ((handleMessage stA { code := none, role := none } 3
        (SignalingMessage.Offer "AAA111" "sdp1" "offer")).1.queueOf 5
       = [WireMsg.sig (SignalingMessage.Offer "AAA111" "sdp1" "offer")])
  ∧ ((handleMessage stA { code := none, role := none } 3
        (SignalingMessage.Answer "AAA111" "asdp" "answer")).1.queueOf 9
       = [WireMsg.sig (SignalingMessage.Answer "AAA111" "asdp" "answer")]) := by
  decide

/-- C4 (amended): only IceCandidate is gated on the sender's join
state: an IceCandidate received from a connection with no recorded role
is dropped entirely — the server state (sessions, queues, send log) and
the connection state are left unchanged, so nothing is cached and
nothing is delivered. Offer and Answer, by contrast, are routed purely
by the code field inside the message, regardless of affiliation. -/
theorem unjoined_ice_candidate_dropped (st : ServerState) (conn : ConnState) (tx : Nat)
    (c cand : String) (mid : Option String) (midx : Option Nat)
    (hrole : conn.role = none) :
    handleMessage st conn tx (SignalingMessage.IceCandidate c cand mid midx) = (st, conn) := by
  unfold handleMessage
  rw [hrole]

/-- C4 witness: instantiating the amended theorem on the concrete state
`stA` for a connection that has not joined. -/
theorem unjoined_ice_candidate_dropped_witness :
    handleMessage stA { code := none, role := none } 3
        (SignalingMessage.IceCandidate "AAA111" "cand" none none)
      = (stA, { code := none, role := none }) :=
  unjoined_ice_candidate_dropped stA { code := none, role := none } 3 "AAA111" "cand"
    none none rfl

/-! Claim C5. -/

/-- C5 counterexample: a viewer Join for the nonexistent code "NOCODE"
does queue the explicit error reply, but the connection is NOT left
without session affiliation: its local code and role are set to the
values from the failed Join (the source assigns them before the
existence check). -/
theorem join_nonexistent_affiliation_counterexample :
    ((handleMessage emptyState { code := none, role := none } 3
        (SignalingMessage.Join "NOCODE" "viewer")).2
       = { code := some "NOCODE", role := some "viewer" })
  ∧ ((handleMessage emptyState { code := none, role := none } 3
        (SignalingMessage.Join "NOCODE" "viewer")).1.queueOf 3
       = [WireMsg.errorMsg "Session not found"]) := by
  decide

/-- C5 (amended): a Join naming a code with no session in the registry
queues an explicit error message on the joining connection's own
delivery queue (with a role-specific text) and leaves the session
registry unchanged, so a subsequent Join can still succeed; however the
connection's recorded code and role are set to the values carried by
the failed Join, not left empty. -/
theorem join_nonexistent_error_reply (st : ServerState) (conn : ConnState) (tx : Nat)
    (c jr : String)
    (hnone : st.sessions c = none)
    (hr : jr = "sharer" ∨ jr = "viewer")
    (hopen : (st.chans tx).closed = false) :
    ((handleMessage st conn tx (SignalingMessage.Join c jr)).1.sessions = st.sessions)
  ∧ ((handleMessage st conn tx (SignalingMessage.Join c jr)).1.queueOf tx
       = st.queueOf tx
           ++ [WireMsg.errorMsg
                 (if jr = "sharer" then "Session not found for code: " ++ c
                  else "Session not found")])
  ∧ ((handleMessage st conn tx (SignalingMessage.Join c jr)).2
       = { code := some c, role := some jr }) := by
  have has : add_sharer st c tx = (st, false) := by
    unfold add_sharer; rw [hnone]
  have hav : add_viewer st c tx = (st, false) := by
    unfold add_viewer; rw [hnone]
  rcases hr with hr | hr <;> subst hr
  · refine ⟨?_, ?_, ?_⟩ <;>
      simp [handleMessage, has, chanSend_sessions, chanSend_queueOf, hopen]
  · refine ⟨?_, ?_, ?_⟩ <;>
      simp [handleMessage, hav, chanSend_sessions, chanSend_queueOf, hopen]

/-- C5 witness: instantiating the amended theorem for a viewer Join on
the empty state. -/
theorem join_nonexistent_error_reply_witness :
    ((handleMessage emptyState { code := none, role := none } 7
        (SignalingMessage.Join "NIX999" "sharer")).1.queueOf 7
       = [WireMsg.errorMsg "Session not found for code: NIX999"]) := by
  have h := (join_nonexistent_error_reply emptyState { code := none, role := none } 7
    "NIX999" "sharer" rfl (Or.inl rfl) rfl).2.1
  simpa [emptyState, ServerState.queueOf] using h

/-! Claim C6. -/

/-- C6: against a code with no session in the registry, add_sharer
(spec: attach_sharer) returns false, add_viewer (spec: attach_viewer)
returns false, send_to_sharer (spec: relay_to_sharer) returns false,
and broadcast_to_viewers (spec: relay_to_viewers) is a no-op; in every
case the entire state — session table, queues, and send log — is
returned unmodified, and each operation is a total function (no
unhandled fault). -/
theorem nonexistent_code_ops_noop (st : ServerState) (c : String) (h : Nat)
    (m : SignalingMessage) (hnone : st.sessions c = none) :
    add_sharer st c h = (st, false)
  ∧ add_viewer st c h = (st, false)
  ∧ send_to_sharer st c m = (st, false)
  ∧ broadcast_to_viewers st c m = st := by
  refine ⟨?_, ?_, ?_, ?_⟩ <;>
    first
    | (unfold add_sharer; rw [hnone])
    | (unfold add_viewer; rw [hnone])
    | (unfold send_to_sharer; rw [hnone])
    | (unfold broadcast_to_viewers; rw [hnone])

/-- C6 witness: instantiating the theorem on the empty state. -/
theorem nonexistent_code_ops_noop_witness :
    add_sharer emptyState "QQQ777" 4 = (emptyState, false)
  ∧ add_viewer emptyState "QQQ777" 4 = (emptyState, false)
  ∧ send_to_sharer emptyState "QQQ777" (SignalingMessage.Error "x") = (emptyState, false)
  ∧ broadcast_to_viewers emptyState "QQQ777" (SignalingMessage.Error "x") = emptyState :=
  nonexistent_code_ops_noop emptyState "QQQ777" 4 (SignalingMessage.Error "x") rfl

/-! Claim C7. -/

/-- Handling one Offer updates exactly the named session, setting its
pending offer to that Offer and leaving all its other fields and all
other sessions unchanged (the broadcast part touches only queues). -/
theorem handle_offer_sessions (st : ServerState) (conn : ConnState) (tx : Nat)
    (c s t : String) (sess : ShareSession) (hs : st.sessions c = some sess) (k : String) :
    (handleMessage st conn tx (SignalingMessage.Offer c s t)).1.sessions k
      = if k = c then
          some { sess with pending_offer := some (SignalingMessage.Offer c s t) }
        else st.sessions k := by
  by_cases hk : k = c <;>
    simp [handleMessage, hs, broadcast_to_viewers, sendAll_sessions, hk]

theorem processOffers_nil (st : ServerState) (conn : ConnState) (tx : Nat) (c : String) :
    processOffers st conn tx c [] = st := rfl

theorem processOffers_cons (st : ServerState) (conn : ConnState) (tx : Nat) (c : String)
    (p : String × String) (ps : List (String × String)) :
    processOffers st conn tx c (p :: ps)
      = processOffers (handleMessage st conn tx (SignalingMessage.Offer c p.1 p.2)).1
          conn tx c ps := rfl

/-- C7: the pending-offer cache supersedes rather than accumulates.
Processing any sequence of Offers for an existing session, ending with
the Offer carrying sdp `s` and sdpType `t`, leaves the session holding
exactly that last Offer as its single pending offer, with every other
session field preserved. Since the field is an Option, the session
holds at most one pending offer at every intermediate point as well. -/
theorem pending_offer_supersedes (st : ServerState) (conn : ConnState) (tx : Nat)
    (c : String) (ps : List (String × String)) (s t : String)
    (sess : ShareSession) (hs : st.sessions c = some sess) :
    (processOffers st conn tx c (ps ++ [(s, t)])).sessions c
      = some { code := sess.code, sharer := sess.sharer, viewers := sess.viewers,
               created_at := sess.created_at,
               pending_offer := some (SignalingMessage.Offer c s t) } := by
  induction ps generalizing st sess with
  | nil =>
      rw [List.nil_append, processOffers_cons, processOffers_nil]
      have h := handle_offer_sessions st conn tx c s t sess hs c
      simpa using h
  | cons p rest ih =>
      rw [List.cons_append, processOffers_cons]
      have hstep : (handleMessage st conn tx (SignalingMessage.Offer c p.1 p.2)).1.sessions c
          = some { sess with pending_offer := some (SignalingMessage.Offer c p.1 p.2) } := by
        simpa using handle_offer_sessions st conn tx c p.1 p.2 sess hs c
      simpa using ih _ _ hstep

/-- C7 witness: on the concrete state `stA`, three successive Offers
leave exactly the last one cached. -/
theorem pending_offer_supersedes_witness :
    (processOffers stA { code := some "AAA111", role := some "sharer" } 9 "AAA111"
        [("s1", "offer"), ("s2", "offer"), ("s3", "offer")]).sessions "AAA111"
      = some { code := "AAA111", sharer := some 9, viewers := [5], created_at := 0,
               pending_offer := some (SignalingMessage.Offer "AAA111" "s3" "offer") } := by
  have h := pending_offer_supersedes stA { code := some "AAA111", role := some "sharer" } 9
    "AAA111" [("s1", "offer"), ("s2", "offer")] "s3" "offer" sessA rfl
  simpa [sessA] using h

/-! Claim C8. -/

/-- C8: broadcast_to_viewers (spec name: relay_to_viewers) attempts one
delivery per currently attached viewer handle — the send log grows by
exactly the session's viewer list, so n viewers mean n delivery
attempts — and every viewer whose channel is open receives the message
on its queue no matter which other viewers' channels are closed, so a
delivery failure to one viewer never prevents delivery to the rest and
the call itself is a total function (never fatal). Handles not in the
viewer list receive nothing. -/
theorem broadcast_delivers_to_every_viewer (st : ServerState) (c : String)
    (m : SignalingMessage) (sess : ShareSession)
    (hs : st.sessions c = some sess) (hnd : sess.viewers.Nodup) :
    ((broadcast_to_viewers st c m).sendLog
       = st.sendLog ++ sess.viewers.map (fun v => (v, WireMsg.sig m)))
  ∧ (∀ h, h ∈ sess.viewers → (st.chans h).closed = false →
      (broadcast_to_viewers st c m).queueOf h = st.queueOf h ++ [WireMsg.sig m])
  ∧ (∀ h, h ∉ sess.viewers → (broadcast_to_viewers st c m).queueOf h = st.queueOf h) := by
  have hb : broadcast_to_viewers st c m = sendAll st sess.viewers m := by
    unfold broadcast_to_viewers; rw [hs]
  rw [hb]
  exact ⟨sendAll_log _ _ _,
    fun h h1 h2 => sendAll_queueOf_mem _ _ _ _ hnd h1 h2,
    fun h h1 => sendAll_queueOf_notmem _ _ _ _ h1⟩

/-- C8 witness: on the concrete state `stC` (viewers 1, 2, 3 with
viewer 2's channel closed), a broadcast logs three delivery attempts,
viewers 1 and 3 receive the message despite viewer 2's failure, and
the sharer handle 9 receives nothing. -/
theorem broadcast_delivers_to_every_viewer_witness :
    ((broadcast_to_viewers stC "CCC333" (SignalingMessage.Error "ping")).sendLog
       = [(1, WireMsg.sig (SignalingMessage.Error "ping")),
          (2, WireMsg.sig (SignalingMessage.Error "ping")),
          (3, WireMsg.sig (SignalingMessage.Error "ping"))])
  ∧ ((broadcast_to_viewers stC "CCC333" (SignalingMessage.Error "ping")).queueOf 1
       = [WireMsg.sig (SignalingMessage.Error "ping")])
  ∧ ((broadcast_to_viewers stC "CCC333" (SignalingMessage.Error "ping")).queueOf 3
       = [WireMsg.sig (SignalingMessage.Error "ping")])
  ∧ ((broadcast_to_viewers stC "CCC333" (SignalingMessage.Error "ping")).queueOf 9
       = []) := by
  have h := broadcast_delivers_to_every_viewer stC "CCC333" (SignalingMessage.Error "ping")
    sessC rfl (by decide)
  refine ⟨by simpa [stC, sessC] using h.1,
    by simpa [stC, sessC, ServerState.queueOf] using h.2.1 1 (by decide) rfl,
    by simpa [stC, sessC, ServerState.queueOf] using h.2.1 3 (by decide) rfl,
    by simpa [stC, sessC, ServerState.queueOf] using h.2.2 9 (by decide)⟩

/-! Claim C9. -/

/-- C9: add_sharer (spec name: attach_sharer) on an existing session
registers the handle as the session's sharer, overwriting whatever
sharer handle was there before, leaves every other field of that
session (code, viewer list, creation time, pending offer) and every
other session unchanged, touches neither queues nor send log, and
returns true; it returns false, leaving the whole state unchanged,
exactly when no session exists for the code. -/
theorem add_sharer_overwrite_spec (st : ServerState) (c : String) (h : Nat) :
    (∀ sess, st.sessions c = some sess →
        ((add_sharer st c h).2 = true)
      ∧ ((add_sharer st c h).1.sessions c
           = some { code := sess.code, sharer := some h, viewers := sess.viewers,
                    created_at := sess.created_at, pending_offer := sess.pending_offer })
      ∧ (∀ k, k ≠ c → (add_sharer st c h).1.sessions k = st.sessions k)
      ∧ ((add_sharer st c h).1.chans = st.chans)
      ∧ ((add_sharer st c h).1.sendLog = st.sendLog))
  ∧ (st.sessions c = none → add_sharer st c h = (st, false)) := by
  constructor
  · intro sess hsess
    have heq : add_sharer st c h =
        ({ st with sessions := fun k =>
            if k = c then some { sess with sharer := some h } else st.sessions k }, true) := by
      unfold add_sharer; rw [hsess]
    rw [heq]
    refine ⟨rfl, by simp, fun k hk => by simp [hk], rfl, rfl⟩
  · intro hnone
    unfold add_sharer; rw [hnone]

/-- C9 witness: instantiating the theorem on the concrete state `stA`,
whose session already has sharer 9; handle 4 replaces it. -/
theorem add_sharer_overwrite_spec_witness :
    (add_sharer stA "AAA111" 4).2 = true
  ∧ (add_sharer stA "AAA111" 4).1.sessions "AAA111"
      = some { code := "AAA111", sharer := some 4, viewers := [5], created_at := 0,
               pending_offer := none } := by
  have h := (add_sharer_overwrite_spec stA "AAA111" 4).1 sessA rfl
  exact ⟨h.1, h.2.1⟩

/-! Claim C10. -/

/-- C10: a Join whose role is neither "sharer" nor "viewer" produces no
reply of any kind and no state change — the returned server state is
exactly the input state (so the registry, every queue, and the send log
are untouched) — yet the connection's local code and role are set to
the values carried by that Join. -/
theorem join_unknown_role_silent (st : ServerState) (conn : ConnState) (tx : Nat)
    (c r : String) (h1 : r ≠ "sharer") (h2 : r ≠ "viewer") :
    handleMessage st conn tx (SignalingMessage.Join c r)
      = (st, { code := some c, role := some r }) := by
  simp [handleMessage, h1, h2]

/-- C10 witness: a Join with the unknown role "spectator" on the empty
state. -/
theorem join_unknown_role_silent_witness :
    handleMessage emptyState { code := none, role := none } 3
        (SignalingMessage.Join "AAA111" "spectator")
      = (emptyState, { code := some "AAA111", role := some "spectator" }) :=
  join_unknown_role_silent emptyState { code := none, role := none } 3 "AAA111" "spectator"
    (by decide) (by decide)

end PathFinder
